import Mathlib

/-!
Verification of the constrained layout engine of the circuit-scene generator
(`src/gen.py`).  The Python code is shallowly embedded: Python floats become
rationals (exact real arithmetic), the global seeded random source becomes an
explicit stream `f : Nat → ℚ` of draws in `[0,1)` together with a threaded
stream position, exceptions become `Except`/`Option` results, and the LaTeX
command strings become a structured inductive type of drawing primitives
carrying the same numeric payloads.
-/

namespace CircuitGen

/-- A 2-D point, as in `Pt = Tuple[float, float]`. -/
abbrev Pt : Type := ℚ × ℚ

/-- An axis-aligned rectangle `(x1, y1, x2, y2)`, as used throughout `gen.py`. -/
abbrev Rect : Type := ℚ × ℚ × ℚ × ℚ

/-- Python `min(x :: xs)` (the fold is equivalent to Python's n-ary `min`). -/
def pyMin (x : ℚ) (xs : List ℚ) : ℚ := xs.foldl min x

/-- Python `max(x :: xs)` (the fold is equivalent to Python's n-ary `max`). -/
def pyMax (x : ℚ) (xs : List ℚ) : ℚ := xs.foldl max x

/-- Embedding of `rect_from_points(pts, pad)`.  Python's `min`/`max` raise
`ValueError` on an empty sequence, so the empty list maps to `none`. -/
def rect_from_points (pts : List Pt) (pad : ℚ) : Option Rect :=
  match pts with
  | [] => none
  | q :: qs =>
    some (pyMin q.1 (qs.map Prod.fst) - pad, pyMin q.2 (qs.map Prod.snd) - pad,
          pyMax q.1 (qs.map Prod.fst) + pad, pyMax q.2 (qs.map Prod.snd) + pad)

/-- Embedding of `rects_overlap(a, b, pad)`: not separated by more than `pad`
along either axis. -/
def rects_overlap (a b : Rect) (pad : ℚ) : Bool :=
  match a, b with
  | (ax1, ay1, ax2, ay2), (bx1, by1, bx2, by2) =>
    !(decide (ax2 + pad < bx1) || decide (bx2 + pad < ax1) ||
      decide (ay2 + pad < by1) || decide (by2 + pad < ay1))

/-- Embedding of `clamp(v, lo, hi) = max(lo, min(hi, v))`. -/
def clamp (v lo hi : ℚ) : ℚ := max lo (min hi v)

/-- The fixed canvas `view_bbox = (-10.0, -8.0, 10.0, 8.0)`. -/
def view_bbox : Rect := (-10, -8, 10, 8)

/-- `vx1` of `view_bbox`. -/
def vx1 : ℚ := view_bbox.1

/-- `vy1` of `view_bbox`. -/
def vy1 : ℚ := view_bbox.2.1

/-- `vx2` of `view_bbox`. -/
def vx2 : ℚ := view_bbox.2.2.1

/-- `vy2` of `view_bbox`. -/
def vy2 : ℚ := view_bbox.2.2.2

/-- `margin = 1.2`. -/
def margin : ℚ := 12/10

/-- `comp_len_choices = [1.6, 1.8, 2.0, 2.2]`. -/
def comp_len_choices : List ℚ := [16/10, 18/10, 2, 22/10]

/-- `lead_len_choices = [0.8, 1.0, 1.2]`. -/
def lead_len_choices : List ℚ := [8/10, 1, 12/10]

/-- `pad = 0.85`, the bbox padding for non-overlap. -/
def pad : ℚ := 85/100

/-- `component_specs()`: the fixed catalogue of 11 `(cid, ctype, element, label)`
tuples. -/
def component_specs : List (String × String × String × String) :=
  [("AC1", "ACSource", "sV", "AC"),
   ("BAT1", "Battery", "battery", "BAT"),
   ("C1", "Capacitor", "C", "C1"),
   ("D1", "Diode", "D", "D1"),
   ("V1", "VoltageSource", "V", "V1"),
   ("L1", "Inductor", "L", "L1"),
   ("I1", "CurrentSource", "I", "I1"),
   ("SW_ID", "IdealSwitch", "switch", "SW"),
   ("SW_R", "RealSwitch", "switch", "SWr"),
   ("T1", "Transformer", "transformer", "T1"),
   ("R1", "Resistor", "R", "R1")]

/-- The `attrs` dictionary of a `ComponentGT`, as a tagged variant: two-pin
components record `label`, `element`, `lead_len`, `lead_end_1`, `lead_end_2`;
the transformer records `label` and `lead_len`. -/
inductive CompAttrs : Type where
  | twoPin (label element : String) (lead_len : ℚ) (lead_end_1 lead_end_2 : Pt)
  | transformer (label : String) (lead_len : ℚ)
  deriving DecidableEq

/-- Embedding of the `ComponentGT` dataclass. -/
structure ComponentGT : Type where
  cid : String
  ctype : String
  p1 : Pt
  p2 : Pt
  orientation : String
  attrs : CompAttrs
  deriving DecidableEq

/-- The `attrs` dictionary of a `MarkerGT`, as a tagged variant. -/
inductive MarkerAttrs : Type where
  | junction (min_degree : Nat)
  | wireJump (gap hump_h : ℚ)
  deriving DecidableEq

/-- Embedding of the `MarkerGT` dataclass. -/
structure MarkerGT : Type where
  mid : String
  mtype : String
  center : Pt
  attrs : MarkerAttrs
  deriving DecidableEq

/-- The drawing commands appended to `cmds`, with the same numeric payloads as
the generated TikZ strings. -/
inductive Cmd : Type where
  | boundingBoxPath (r : Rect)
  | toElem (p1 p2 : Pt) (element label : String)
  | seg (a b : Pt)
  | transformerNode (p : Pt)
  | transformerLead (anchor : String) (dx : ℚ)
  | dot (center : Pt) (r_pt : ℚ)
  | hump (x1 x2 y h : ℚ)
  deriving DecidableEq

/-- Embedding of `tikz_junction(x, y)` (default dot radius 1.7pt). -/
def tikz_junction (x y : ℚ) : Cmd := Cmd.dot (x, y) (17/10)

/-- Embedding of `tikz_wire_jump(cx, cy, halfgap, hump_h)`: the Bezier hump
runs from `cx - halfgap` to `cx + halfgap` at height `hump_h`. -/
def tikz_wire_jump (cx cy halfgap hump_h : ℚ) : Cmd :=
  Cmd.hump (cx - halfgap) (cx + halfgap) cy hump_h

/-- The mutable lists of `generate_scene_with_leads`, as one state record. -/
structure SceneState : Type where
  comps : List ComponentGT
  markers : List MarkerGT
  cmds : List Cmd
  occupied : List Rect
  deriving DecidableEq

/-- The value returned by `generate_scene_with_leads`: the sampled line width
(the `style` string), the TikZ body, and the ground-truth lists. -/
structure Scene : Type where
  line_w : ℚ
  body : List Cmd
  comps : List ComponentGT
  markers : List MarkerGT
  deriving DecidableEq

/-- Result of a bounded placement search: outcome, new stream position, and
the number of attempts consumed. -/
structure PlaceResult : Type where
  out : Except String SceneState
  pos : Nat
  tries : Nat

/-- Result of `generate_one`'s retry loop: outcome (the error carries the last
underlying cause, `None` before any attempt), stream position, attempts. -/
structure GenOneResult : Type where
  out : Except (Option String) Scene
  pos : Nat
  tries : Nat

section Generator

variable (f : Nat → ℚ)

/-- `random.uniform(lo, hi)`: consumes one stream draw `r` and returns
`lo + r * (hi - lo)`. -/
def randUniform (lo hi : ℚ) (p : Nat) : ℚ × Nat :=
  (lo + f p * (hi - lo), p + 1)

/-- `random.choice(xs)`: consumes one stream draw and selects a member by
index `⌊r * len⌋` (clamped). -/
def randChoice {α : Type} (xs : List α) (d : α) (p : Nat) : α × Nat :=
  (xs.getD (min (⌊f p * (xs.length : ℚ)⌋.toNat) (xs.length - 1)) d, p + 1)

/-- One candidate sample of `place_two_pin`'s search: orientation, body length,
lead length, center, and the derived terminal/lead points. -/
structure TwoPinTry : Type where
  p1 : Pt
  p2 : Pt
  w1 : Pt
  w2 : Pt
  ori : String
  len : ℚ
  lead : ℚ
  deriving DecidableEq

/-- One iteration of `place_two_pin`'s sampling: draw `ori`, `L`, `lead`, then
a center `(cx, cy)` over the sub-rectangle keeping body plus leads inside the
canvas, and form `p1, p2, w1, w2`. -/
def place_two_pin_attempt (p : Nat) : TwoPinTry × Nat :=
  let co := randChoice f ["h", "v"] "h" p
  let cl := randChoice f comp_len_choices (16/10) co.2
  let cd := randChoice f lead_len_choices (8/10) cl.2
  if co.1 = "h" then
    let ux := randUniform f (vx1 + margin + (cl.1/2 + cd.1)) (vx2 - margin - (cl.1/2 + cd.1)) cd.2
    let uy := randUniform f (vy1 + margin) (vy2 - margin) ux.2
    (⟨(ux.1 - cl.1/2, uy.1), (ux.1 + cl.1/2, uy.1),
      (ux.1 - cl.1/2 - cd.1, uy.1), (ux.1 + cl.1/2 + cd.1, uy.1),
      co.1, cl.1, cd.1⟩, uy.2)
  else
    let ux := randUniform f (vx1 + margin) (vx2 - margin) cd.2
    let uy := randUniform f (vy1 + margin + (cl.1/2 + cd.1)) (vy2 - margin - (cl.1/2 + cd.1)) ux.2
    (⟨(ux.1, uy.1 - cl.1/2), (ux.1, uy.1 + cl.1/2),
      (ux.1, uy.1 - cl.1/2 - cd.1), (ux.1, uy.1 + cl.1/2 + cd.1),
      co.1, cl.1, cd.1⟩, uy.2)

/-- The rejection-sampling loop of `place_two_pin`, with explicit fuel (the
source's `for _ in range(4000)`); exhausting the fuel raises the feasibility
error naming the element. -/
def place_two_pin_loop (cid ctype element label : String) :
    Nat → SceneState → Nat → PlaceResult
  | 0, _, p =>
    ⟨.error ("Could not place " ++ cid ++
      " without overlap. Consider enlarging view_bbox or reducing pad."), p, 0⟩
  | fuel + 1, st, p =>
    let a := place_two_pin_attempt f p
    let t := a.1
    let bb := (rect_from_points [t.p1, t.p2, t.w1, t.w2] pad).getD (0, 0, 0, 0)
    if st.occupied.any (fun old => rects_overlap bb old (15/100)) then
      let r := place_two_pin_loop cid ctype element label fuel st a.2
      ⟨r.out, r.pos, r.tries + 1⟩
    else
      ⟨.ok { st with
          occupied := st.occupied ++ [bb],
          cmds := st.cmds ++
            [Cmd.toElem t.p1 t.p2 element label, Cmd.seg t.w1 t.p1, Cmd.seg t.p2 t.w2],
          comps := st.comps ++
            [⟨cid, ctype, t.p1, t.p2, t.ori,
              CompAttrs.twoPin label element t.lead t.w1 t.w2⟩] },
        a.2, 1⟩

/-- `place_two_pin(cid, ctype, element, label)`: the loop with its fixed
attempt budget of 4000. -/
def place_two_pin (cid ctype element label : String) (st : SceneState) (p : Nat) :
    PlaceResult :=
  place_two_pin_loop f cid ctype element label 4000 st p

/-- The rejection-sampling loop of `place_transformer_node` with explicit
fuel: sample an anchor `(x, y)` with the larger margin, use the fixed
`±2.2` footprint as the occupied box, and on success also sample the lead
length and record the ground truth with corner points `(x∓1.6, y±1.9)`. -/
def place_transformer_loop : Nat → SceneState → Nat → PlaceResult
  | 0, _, p => ⟨.error "Could not place transformer without overlap.", p, 0⟩
  | fuel + 1, st, p =>
    let ux := randUniform f (vx1 + margin + 2) (vx2 - margin - 2) p
    let uy := randUniform f (vy1 + margin + 2) (vy2 - margin - 2) ux.2
    let bb : Rect := (ux.1 - 22/10, uy.1 - 22/10, ux.1 + 22/10, uy.1 + 22/10)
    if st.occupied.any (fun old => rects_overlap bb old (15/100)) then
      let r := place_transformer_loop fuel st uy.2
      ⟨r.out, r.pos, r.tries + 1⟩
    else
      let cd := randChoice f [9/10, 11/10, 13/10] (9/10) uy.2
      ⟨.ok { st with
          occupied := st.occupied ++ [bb],
          cmds := st.cmds ++
            [Cmd.transformerNode (ux.1, uy.1),
             Cmd.transformerLead "A1" (-cd.1), Cmd.transformerLead "A2" (-cd.1),
             Cmd.transformerLead "B1" cd.1, Cmd.transformerLead "B2" cd.1],
          comps := st.comps ++
            [⟨"T1", "Transformer", (ux.1 - 16/10, uy.1 + 19/10),
              (ux.1 + 16/10, uy.1 - 19/10), "na", CompAttrs.transformer "T1" cd.1⟩] },
        cd.2, 1⟩

/-- `place_transformer_node()`: the loop with its fixed attempt budget 4000. -/
def place_transformer_node (st : SceneState) (p : Nat) : PlaceResult :=
  place_transformer_loop f 4000 st p

/-- The `for cid, ctype, element, label in component_specs()` loop of step 2,
skipping `"T1"`; a placement failure propagates (the Python exception). -/
def place_remaining :
    List (String × String × String × String) → SceneState → Nat →
    Except String SceneState × Nat
  | [], st, p => (.ok st, p)
  | s :: rest, st, p =>
    if s.1 = "T1" then place_remaining rest st p
    else
      let r := place_two_pin f s.1 s.2.1 s.2.2.1 s.2.2.2 st p
      match r.out with
      | .ok st' => place_remaining rest st' r.pos
      | .error e => (.error e, r.pos)

/-- Step 3 of `generate_scene_with_leads`: the forced junction motif, placed
without any overlap check. -/
def add_junction (st : SceneState) (p : Nat) : SceneState × Nat :=
  let uj := randUniform f (vx1 + margin + 25/10) (vx2 - margin - 25/10) p
  let uk := randUniform f (vy1 + margin + 25/10) (vy2 - margin - 25/10) uj.2
  ({ st with
      cmds := st.cmds ++
        [Cmd.seg (uj.1 - 2, uk.1) (uj.1, uk.1),
         Cmd.seg (uj.1, uk.1) (uj.1 + 2, uk.1),
         Cmd.seg (uj.1, uk.1) (uj.1, uk.1 + 2),
         tikz_junction uj.1 uk.1],
      markers := st.markers ++
        [⟨"JUNC1", "junction", (uj.1, uk.1), MarkerAttrs.junction 3⟩] },
    uk.2)

/-- Step 4 of `generate_scene_with_leads`: the forced wire-jump motif with the
fixed `gap = 0.30` and `hump_h = 0.30`, placed without any overlap check. -/
def add_wire_jump (st : SceneState) (p : Nat) : SceneState × Nat :=
  let uj := randUniform f (vx1 + margin + 3) (vx2 - margin - 3) p
  let uk := randUniform f (vy1 + margin + 3) (vy2 - margin - 3) uj.2
  let gap : ℚ := 30/100
  ({ st with
      cmds := st.cmds ++
        [Cmd.seg (uj.1, uk.1 - 22/10) (uj.1, uk.1 + 22/10),
         Cmd.seg (uj.1 - 24/10, uk.1) (uj.1 - gap, uk.1),
         tikz_wire_jump uj.1 uk.1 gap (30/100),
         Cmd.seg (uj.1 + gap, uk.1) (uj.1 + 24/10, uk.1)],
      markers := st.markers ++
        [⟨"JUMP1", "wire_jump", (uj.1, uk.1), MarkerAttrs.wireJump gap (30/100)⟩] },
    uk.2)

/-- The staged body of `generate_scene_with_leads()` after the line-width
draw, with the accumulator state lifted to the parameter `st0` (the source
always passes the freshly initialised empty lists): place the transformer
first, then the remaining catalogue elements, then the two forced motifs;
assemble the body with the bounding-box path first. -/
def generate_scene_steps (line_w : ℚ) (st0 : SceneState) (q : Nat) :
    Except String Scene × Nat :=
  let r1 := place_transformer_node f st0 q
  match r1.out with
  | .error e => (.error e, r1.pos)
  | .ok st1 =>
    match place_remaining f component_specs st1 r1.pos with
    | (.error e, p2) => (.error e, p2)
    | (.ok st2, p2) =>
      let s3 := add_junction f st2 p2
      let s4 := add_wire_jump f s3.1 s3.2
      (.ok ⟨line_w, Cmd.boundingBoxPath view_bbox :: s4.1.cmds, s4.1.comps, s4.1.markers⟩,
       s4.2)

/-- Embedding of `generate_scene_with_leads()`: draw the line width, then run
the staged scene assembly on freshly initialised empty lists. -/
def generate_scene_with_leads (p : Nat) : Except String Scene × Nat :=
  let cw := randChoice f [8/10, 1, 12/10] (8/10) p
  generate_scene_steps f cw.1 ⟨[], [], [], []⟩ cw.2

end Generator

/-- The whole-scene retry loop of `generate_one` with explicit fuel (the
source's `for _ in range(80) ... else raise last_err`), abstracted over the
scene builder `g` it retries; each retry rebuilds the scene from scratch
(a fresh call of `g`) and the last error is remembered. -/
def retry_loop (g : Nat → Except String Scene × Nat) :
    Nat → Option String → Nat → GenOneResult
  | 0, last_err, p => ⟨.error last_err, p, 0⟩
  | n + 1, _last_err, p =>
    match g p with
    | (.ok sc, p') => ⟨.ok sc, p', 1⟩
    | (.error e, p') =>
      let r := retry_loop g n (some e) p'
      ⟨r.out, r.pos, r.tries + 1⟩

section GeneratorTop

variable (f : Nat → ℚ)

/-- The scene-building part of `generate_one(idx)`: up to 80 whole-scene
attempts of `generate_scene_with_leads`, starting with `last_err = None`.
(File export and the external LaTeX/raster calls are out-of-scope
collaborators.) -/
def generate_one (p : Nat) : GenOneResult :=
  retry_loop (generate_scene_with_leads f) 80 none p

/-- The `for i in range(args.n): generate_one(i)` loop of `main`, collecting
the ground-truth scene of each sample; a fatal failure aborts the run. -/
def run_samples : Nat → Nat → Except (Option String) (List Scene) × Nat
  | 0, p => (.ok [], p)
  | n + 1, p =>
    let r := generate_one f p
    match r.out with
    | .error e => (.error e, r.pos)
    | .ok sc =>
      match run_samples n r.pos with
      | (.ok scs, p') => (.ok (sc :: scs), p')
      | (.error e, p') => (.error e, p')

end GeneratorTop

/-- A valid random stream: every draw of Python's `random.random()` lies in
`[0, 1)`. -/
def ValidS (f : Nat → ℚ) : Prop := ∀ i, 0 ≤ f i ∧ f i < 1

/-- A point lies within the canvas bounds `view_bbox`. -/
def ptIn (q : Pt) : Prop := vx1 ≤ q.1 ∧ q.1 ≤ vx2 ∧ vy1 ≤ q.2 ∧ q.2 ≤ vy2

/-- All coordinates recorded in a `ComponentGT` (its terminals `p1`, `p2` and,
for a two-pin element, the two lead endpoints stored in `attrs`). -/
def compRecordedPts (c : ComponentGT) : List Pt :=
  match c.attrs with
  | .twoPin _ _ _ w1 w2 => [c.p1, c.p2, w1, w2]
  | .transformer _ _ => [c.p1, c.p2]

/-- Every coordinate recorded in the component lies within the canvas. -/
def compIn (c : ComponentGT) : Prop := ∀ q ∈ compRecordedPts c, ptIn q

/-- The padded bounding box of a component's recorded point set, padded by
`pad = 0.85` — the box the spec's non-overlap property speaks about. -/
def claimBox (c : ComponentGT) : Rect :=
  (rect_from_points (compRecordedPts c) pad).getD (0, 0, 0, 0)

/-- The occupied region actually committed for a component: for a two-pin
element the 0.85-padded box of terminals and lead ends (same as `claimBox`),
for the transformer the fixed `±2.2` footprint around its anchor (recovered
from the recorded corner points, whose midpoint is the anchor). -/
def commitBox (c : ComponentGT) : Rect :=
  match c.attrs with
  | .twoPin _ _ _ w1 w2 => (rect_from_points [c.p1, c.p2, w1, w2] pad).getD (0, 0, 0, 0)
  | .transformer _ _ =>
    ((c.p1.1 + c.p2.1) / 2 - 22/10, (c.p1.2 + c.p2.2) / 2 - 22/10,
     (c.p1.1 + c.p2.1) / 2 + 22/10, (c.p1.2 + c.p2.2) / 2 + 22/10)

/-- Whether a drawing command is the curved wire-jump hump primitive. -/
def isHump : Cmd → Bool
  | .hump _ _ _ _ => true
  | _ => false

/-- Whether a component record carries two-pin attributes. -/
def isTwoPinAttrs : CompAttrs → Bool
  | .twoPin _ _ _ _ _ => true
  | .transformer _ _ => false

/-- A placeholder component used only as the default of list indexing. -/
def defaultComp : ComponentGT := ⟨"", "", (0, 0), (0, 0), "", .transformer "" 0⟩

/-- Draws for one concrete successful run: line width, transformer at the
canvas center, ten two-pin placements (each accepted at the first attempt),
then the junction and wire-jump centers. -/
def cvals : List ℚ :=
  [0, 1/2, 1/2, 0,
   0, 0, 0, 1/2, 3/4,
   0, 0, 0, 1/48, 5/136,
   0, 0, 0, 19/48, 5/136,
   0, 0, 0, 37/48, 5/136,
   0, 0, 0, 1/48, 25/136,
   0, 0, 0, 19/48, 25/136,
   0, 0, 0, 37/48, 25/136,
   0, 0, 0, 1/48, 45/136,
   0, 0, 0, 61/72, 45/136,
   0, 0, 0, 1/48, 65/136,
   1/2, 1/2, 1/2, 1/2]

/-- The concrete stream built from `cvals` (constant `1/2` afterwards). -/
def cstream : Nat → ℚ := fun i => cvals.getD i (1/2)

/-- The scene generated by the concrete run on `cstream`. -/
def cscene : Scene :=
  match (generate_scene_with_leads cstream 0).1 with
  | .ok sc => sc
  | .error _ => ⟨0, [], [], []⟩

/-- A stream whose first whole-scene attempt exhausts the placement budget
(after the transformer is placed at the center, every candidate for `AC1`
lands on the center and is rejected) and whose second attempt replays the
successful `cstream` run.  `4 + 5 * 4000 = 20004` draws feed the first
attempt. -/
def failS : Nat → ℚ := fun i =>
  if i < 4 then cvals.getD i (1/2)
  else if i < 20004 then 1/2
  else cstream (i - 20004)

/-- The feasibility-failure message raised for the element `AC1`. -/
def msgAC1 : String :=
  "Could not place AC1 without overlap. Consider enlarging view_bbox or reducing pad."

/-- The scene state after `failS`'s transformer placement (transformer at the
canvas center). -/
def failSt1 : SceneState :=
  match (place_transformer_node failS ⟨[], [], [], []⟩ 1).out with
  | .ok st => st
  | .error _ => ⟨[], [], [], []⟩

/-- Rectangles `a` and `b` are separated by at least `t` along some axis. -/
def sepAtLeast (a b : Rect) (t : ℚ) : Prop :=
  t ≤ b.1 - a.2.2.1 ∨ t ≤ a.1 - b.2.2.1 ∨ t ≤ b.2.1 - a.2.2.2 ∨ t ≤ a.2.1 - b.2.2.2

/-- Rectangles `a` and `b` are separated by more than `t` along some axis. -/
def sepMoreThan (a b : Rect) (t : ℚ) : Prop :=
  t < b.1 - a.2.2.1 ∨ t < a.1 - b.2.2.1 ∨ t < b.2.1 - a.2.2.2 ∨ t < a.2.1 - b.2.2.2

/-- Rectangles `a` and `b` are strictly separated (a positive gap along some
axis). -/
def strictSep (a b : Rect) : Prop := sepMoreThan a b 0

/-! ### Lemmas about the geometry kernel -/

theorem rects_overlap_eq_false_iff (ax1 ay1 ax2 ay2 bx1 by1 bx2 by2 t : ℚ) :
    rects_overlap (ax1, ay1, ax2, ay2) (bx1, by1, bx2, by2) t = false ↔
      (ax2 + t < bx1 ∨ bx2 + t < ax1 ∨ ay2 + t < by1 ∨ by2 + t < ay1) := by
  simp only [rects_overlap, Bool.not_eq_false', Bool.or_eq_true, decide_eq_true_eq]
  tauto

theorem rects_overlap_symm (a b : Rect) (t : ℚ) :
    rects_overlap a b t = rects_overlap b a t := by
  obtain ⟨ax1, ay1, ax2, ay2⟩ := a
  obtain ⟨bx1, by1, bx2, by2⟩ := b
  rw [Bool.eq_iff_iff]
  simp [rects_overlap]
  tauto

theorem pyMin_le_self (x : ℚ) (xs : List ℚ) : pyMin x xs ≤ x := by
  induction xs generalizing x with
  | nil => simp [pyMin]
  | cons y ys ih =>
    have h : pyMin x (y :: ys) = pyMin (min x y) ys := rfl
    rw [h]
    exact le_trans (ih (min x y)) (min_le_left x y)

theorem pyMin_le_mem (xs : List ℚ) (a : ℚ) : ∀ x, a ∈ xs → pyMin x xs ≤ a := by
  induction xs with
  | nil => intro x h; cases h
  | cons y ys ih =>
    intro x h
    have hstep : pyMin x (y :: ys) = pyMin (min x y) ys := rfl
    rcases List.mem_cons.mp h with rfl | h'
    · rw [hstep]
      exact le_trans (pyMin_le_self _ _) (min_le_right x a)
    · rw [hstep]
      exact ih (min x y) h'

theorem pyMax_ge_self (x : ℚ) (xs : List ℚ) : x ≤ pyMax x xs := by
  induction xs generalizing x with
  | nil => simp [pyMax]
  | cons y ys ih =>
    have h : pyMax x (y :: ys) = pyMax (max x y) ys := rfl
    rw [h]
    exact le_trans (le_max_left x y) (ih (max x y))

theorem pyMax_ge_mem (xs : List ℚ) (a : ℚ) : ∀ x, a ∈ xs → a ≤ pyMax x xs := by
  induction xs with
  | nil => intro x h; cases h
  | cons y ys ih =>
    intro x h
    have hstep : pyMax x (y :: ys) = pyMax (max x y) ys := rfl
    rcases List.mem_cons.mp h with rfl | h'
    · rw [hstep]
      exact le_trans (le_max_right x a) (pyMax_ge_self _ _)
    · rw [hstep]
      exact ih (max x y) h'

/-! ### Lemmas about the random primitives -/

theorem randUniform_bounds (f : Nat → ℚ) (hf : ValidS f) (lo hi : ℚ) (p : Nat)
    (hlh : lo ≤ hi) :
    lo ≤ (randUniform f lo hi p).1 ∧ (randUniform f lo hi p).1 ≤ hi := by
  obtain ⟨h0, h1⟩ := hf p
  constructor
  · have hm : 0 ≤ f p * (hi - lo) := mul_nonneg h0 (by linarith)
    simp only [randUniform]
    linarith
  · have hm : f p * (hi - lo) ≤ hi - lo :=
      mul_le_of_le_one_left (by linarith) (le_of_lt h1)
    simp only [randUniform]
    linarith

theorem randChoice_mem {α : Type} (f : Nat → ℚ) (xs : List α) (d : α) (p : Nat)
    (hne : xs ≠ []) : (randChoice f xs d p).1 ∈ xs := by
  have hlen : 0 < xs.length := List.length_pos.mpr hne
  have hidx : min (⌊f p * (xs.length : ℚ)⌋.toNat) (xs.length - 1) < xs.length :=
    lt_of_le_of_lt (min_le_right _ _) (by omega)
  simp only [randChoice]
  rw [List.getD_eq_getElem _ _ hidx]
  exact List.getElem_mem hidx

theorem comp_len_mem_bounds {L : ℚ} (h : L ∈ comp_len_choices) :
    16/10 ≤ L ∧ L ≤ 22/10 := by
  simp only [comp_len_choices, List.mem_cons, List.not_mem_nil, or_false] at h
  rcases h with rfl | rfl | rfl | rfl <;> norm_num

theorem lead_len_mem_bounds {l : ℚ} (h : l ∈ lead_len_choices) :
    8/10 ≤ l ∧ l ≤ 12/10 := by
  simp only [lead_len_choices, List.mem_cons, List.not_mem_nil, or_false] at h
  rcases h with rfl | rfl | rfl <;> norm_num

/-! ### C4, C5, C6 -/

/-- C4: the generator is deterministic under the seed — the ground-truth
export of a whole run is a pure function of the seed-determined draw stream,
so two runs with pointwise-identical streams (identical seed) and identical
sample count produce identical exports for every sample index. -/
theorem claim4_determinism :
    ∀ (f₁ f₂ : Nat → ℚ) (n p : Nat), (∀ i, f₁ i = f₂ i) →
      run_samples f₁ n p = run_samples f₂ n p := by
  intro f₁ f₂ n p h
  have hf : f₁ = f₂ := funext h
  subst hf
  rfl

theorem claim4_witness :
    run_samples cstream 1 0 = run_samples (fun i => cvals.getD i (1/2)) 1 0 :=
  claim4_determinism cstream (fun i => cvals.getD i (1/2)) 1 0 (fun _ => rfl)

/-- C5 (amended): `rects_overlap a b t` is false exactly when the rectangles
are separated by strictly more than `t` along some axis (not "at least `t`"),
it is symmetric, and for nonnegative tolerance a false result implies the
rectangles are strictly separated. -/
theorem claim5_overlap_separation :
    ∀ (a b : Rect) (t : ℚ),
      (rects_overlap a b t = false ↔ sepMoreThan a b t) ∧
      rects_overlap a b t = rects_overlap b a t ∧
      (0 ≤ t → rects_overlap a b t = false → strictSep a b) := by
  intro a b t
  obtain ⟨ax1, ay1, ax2, ay2⟩ := a
  obtain ⟨bx1, by1, bx2, by2⟩ := b
  have hiff : rects_overlap (ax1, ay1, ax2, ay2) (bx1, by1, bx2, by2) t = false ↔
      sepMoreThan (ax1, ay1, ax2, ay2) (bx1, by1, bx2, by2) t := by
    rw [rects_overlap_eq_false_iff]
    unfold sepMoreThan
    dsimp only
    constructor
    · rintro (h | h | h | h)
      · exact Or.inl (by linarith)
      · exact Or.inr (Or.inl (by linarith))
      · exact Or.inr (Or.inr (Or.inl (by linarith)))
      · exact Or.inr (Or.inr (Or.inr (by linarith)))
    · rintro (h | h | h | h)
      · exact Or.inl (by linarith)
      · exact Or.inr (Or.inl (by linarith))
      · exact Or.inr (Or.inr (Or.inl (by linarith)))
      · exact Or.inr (Or.inr (Or.inr (by linarith)))
  refine ⟨hiff, rects_overlap_symm _ _ _, fun ht hov => ?_⟩
  have hs := hiff.mp hov
  unfold sepMoreThan at hs
  unfold strictSep sepMoreThan
  dsimp only at hs ⊢
  rcases hs with h | h | h | h
  · exact Or.inl (by linarith)
  · exact Or.inr (Or.inl (by linarith))
  · exact Or.inr (Or.inr (Or.inl (by linarith)))
  · exact Or.inr (Or.inr (Or.inr (by linarith)))

theorem claim5_witness :
    (rects_overlap ((0 : ℚ), (0 : ℚ), (1 : ℚ), (1 : ℚ)) (3, 0, 4, 1) (15/100) = false ↔
      sepMoreThan (0, 0, 1, 1) (3, 0, 4, 1) (15/100)) ∧
    rects_overlap ((0 : ℚ), (0 : ℚ), (1 : ℚ), (1 : ℚ)) (3, 0, 4, 1) (15/100) =
      rects_overlap (3, 0, 4, 1) (0, 0, 1, 1) (15/100) ∧
    strictSep ((0 : ℚ), (0 : ℚ), (1 : ℚ), (1 : ℚ)) (3, 0, 4, 1) := by
  have h := claim5_overlap_separation (0, 0, 1, 1) (3, 0, 4, 1) (15/100)
  exact ⟨h.1, h.2.1, h.2.2 (by norm_num) (by with_unfolding_all rfl)⟩

theorem claim5_counterexample :
    ¬ (∀ (a b : Rect) (t : ℚ), rects_overlap a b t = true ↔ ¬ sepAtLeast a b t) := by
  intro h
  have hov : rects_overlap ((0 : ℚ), (0 : ℚ), (1 : ℚ), (1 : ℚ)) (23/20, 0, 2, 1) (3/20) =
      true := by with_unfolding_all rfl
  have hsep : sepAtLeast ((0 : ℚ), (0 : ℚ), (1 : ℚ), (1 : ℚ)) (23/20, 0, 2, 1) (3/20) := by
    unfold sepAtLeast
    exact Or.inl (by norm_num)
  exact (h _ _ _).mp hov hsep

/-- C6 (amended): on every nonempty point list, `rect_from_points` returns
the axis-aligned min/max box expanded by the padding on every side, and this
box encloses each given point with the padding margin; on the empty list the
Python code raises (`min([])`), so the function is not total there. -/
theorem claim6_boundingBox :
    (∀ (q : Pt) (qs : List Pt) (padv : ℚ),
      rect_from_points (q :: qs) padv =
        some (pyMin q.1 (qs.map Prod.fst) - padv, pyMin q.2 (qs.map Prod.snd) - padv,
              pyMax q.1 (qs.map Prod.fst) + padv, pyMax q.2 (qs.map Prod.snd) + padv)) ∧
    (∀ (q : Pt) (qs : List Pt) (padv : ℚ) (s : Pt), s ∈ q :: qs →
      ((rect_from_points (q :: qs) padv).getD (0, 0, 0, 0)).1 ≤ s.1 - padv ∧
      ((rect_from_points (q :: qs) padv).getD (0, 0, 0, 0)).2.1 ≤ s.2 - padv ∧
      s.1 + padv ≤ ((rect_from_points (q :: qs) padv).getD (0, 0, 0, 0)).2.2.1 ∧
      s.2 + padv ≤ ((rect_from_points (q :: qs) padv).getD (0, 0, 0, 0)).2.2.2) := by
  constructor
  · intro q qs padv; rfl
  · intro q qs padv s hs
    have hx : pyMin q.1 (qs.map Prod.fst) ≤ s.1 := by
      rcases List.mem_cons.mp hs with rfl | h'
      · exact pyMin_le_self _ _
      · exact pyMin_le_mem _ _ _ (List.mem_map_of_mem Prod.fst h')
    have hy : pyMin q.2 (qs.map Prod.snd) ≤ s.2 := by
      rcases List.mem_cons.mp hs with rfl | h'
      · exact pyMin_le_self _ _
      · exact pyMin_le_mem _ _ _ (List.mem_map_of_mem Prod.snd h')
    have hx2 : s.1 ≤ pyMax q.1 (qs.map Prod.fst) := by
      rcases List.mem_cons.mp hs with rfl | h'
      · exact pyMax_ge_self _ _
      · exact pyMax_ge_mem _ _ _ (List.mem_map_of_mem Prod.fst h')
    have hy2 : s.2 ≤ pyMax q.2 (qs.map Prod.snd) := by
      rcases List.mem_cons.mp hs with rfl | h'
      · exact pyMax_ge_self _ _
      · exact pyMax_ge_mem _ _ _ (List.mem_map_of_mem Prod.snd h')
    refine ⟨?_, ?_, ?_, ?_⟩ <;> simp only [rect_from_points, Option.getD_some] <;> linarith

theorem claim6_witness :
    ((rect_from_points [((0 : ℚ), (0 : ℚ)), (1, 1)] (85/100)).getD (0, 0, 0, 0)).1 ≤
      (0 : ℚ) - 85/100 ∧
    ((rect_from_points [((0 : ℚ), (0 : ℚ)), (1, 1)] (85/100)).getD (0, 0, 0, 0)).2.1 ≤
      (0 : ℚ) - 85/100 ∧
    (0 : ℚ) + 85/100 ≤
      ((rect_from_points [((0 : ℚ), (0 : ℚ)), (1, 1)] (85/100)).getD (0, 0, 0, 0)).2.2.1 ∧
    (0 : ℚ) + 85/100 ≤
      ((rect_from_points [((0 : ℚ), (0 : ℚ)), (1, 1)] (85/100)).getD (0, 0, 0, 0)).2.2.2 :=
  claim6_boundingBox.2 (0, 0) [(1, 1)] (85/100) (0, 0) (by simp)

theorem claim6_counterexample :
    ¬ (∀ (pts : List Pt) (padv : ℚ), ∃ r, rect_from_points pts padv = some r) := by
  intro h
  obtain ⟨r, hr⟩ := h [] 0
  simp [rect_from_points] at hr

/-! ### Lemmas about the placement searches -/

theorem vx1_eq : vx1 = -10 := rfl

theorem vy1_eq : vy1 = -8 := rfl

theorem vx2_eq : vx2 = 10 := rfl

theorem vy2_eq : vy2 = 8 := rfl

theorem margin_eq : margin = 12/10 := rfl

theorem place_two_pin_attempt_ptIn (f : Nat → ℚ) (hf : ValidS f) (p : Nat) :
    ptIn (place_two_pin_attempt f p).1.p1 ∧ ptIn (place_two_pin_attempt f p).1.p2 ∧
    ptIn (place_two_pin_attempt f p).1.w1 ∧ ptIn (place_two_pin_attempt f p).1.w2 := by
  have hLmem : (randChoice f comp_len_choices (16/10)
      (randChoice f ["h", "v"] "h" p).2).1 ∈ comp_len_choices :=
    randChoice_mem f _ _ _ (by simp [comp_len_choices])
  have hdmem : (randChoice f lead_len_choices (8/10)
      (randChoice f comp_len_choices (16/10) (randChoice f ["h", "v"] "h" p).2).2).1 ∈
      lead_len_choices :=
    randChoice_mem f _ _ _ (by simp [lead_len_choices])
  obtain ⟨hL1, hL2⟩ := comp_len_mem_bounds hLmem
  obtain ⟨hd1, hd2⟩ := lead_len_mem_bounds hdmem
  simp only [place_two_pin_attempt]
  set co := randChoice f ["h", "v"] "h" p with hco
  set cl := randChoice f comp_len_choices (16/10) co.2 with hcl
  set cd := randChoice f lead_len_choices (8/10) cl.2 with hcd
  by_cases hori : co.1 = "h"
  · rw [if_pos hori]
    have hux := randUniform_bounds f hf (vx1 + margin + (cl.1/2 + cd.1))
      (vx2 - margin - (cl.1/2 + cd.1)) cd.2
      (by rw [vx1_eq, vx2_eq, margin_eq]; linarith)
    have huy := randUniform_bounds f hf (vy1 + margin) (vy2 - margin)
      (randUniform f (vx1 + margin + (cl.1/2 + cd.1))
        (vx2 - margin - (cl.1/2 + cd.1)) cd.2).2
      (by rw [vy1_eq, vy2_eq, margin_eq]; norm_num)
    refine ⟨?_, ?_, ?_, ?_⟩ <;> (unfold ptIn; dsimp only) <;>
      refine ⟨by linarith [hux.1, hux.2, vx1_eq, margin_eq],
        by linarith [hux.1, hux.2, vx2_eq, margin_eq],
        by linarith [huy.1, huy.2, vy1_eq, margin_eq],
        by linarith [huy.1, huy.2, vy2_eq, margin_eq]⟩
  · rw [if_neg hori]
    have hux := randUniform_bounds f hf (vx1 + margin) (vx2 - margin) cd.2
      (by rw [vx1_eq, vx2_eq, margin_eq]; norm_num)
    have huy := randUniform_bounds f hf (vy1 + margin + (cl.1/2 + cd.1))
      (vy2 - margin - (cl.1/2 + cd.1))
      (randUniform f (vx1 + margin) (vx2 - margin) cd.2).2
      (by rw [vy1_eq, vy2_eq, margin_eq]; linarith)
    refine ⟨?_, ?_, ?_, ?_⟩ <;> (unfold ptIn; dsimp only) <;>
      refine ⟨by linarith [hux.1, hux.2, vx1_eq, margin_eq],
        by linarith [hux.1, hux.2, vx2_eq, margin_eq],
        by linarith [huy.1, huy.2, vy1_eq, margin_eq],
        by linarith [huy.1, huy.2, vy2_eq, margin_eq]⟩

theorem place_two_pin_loop_tries (f : Nat → ℚ) (cid ctype element label : String) :
    ∀ (fuel : Nat) (st : SceneState) (p : Nat),
      (place_two_pin_loop f cid ctype element label fuel st p).tries ≤ fuel := by
  intro fuel
  induction fuel with
  | zero => intro st p; simp [place_two_pin_loop]
  | succ n ih =>
    intro st p
    simp only [place_two_pin_loop]
    split
    · dsimp only
      have := ih st (place_two_pin_attempt f p).2
      omega
    · dsimp only
      omega

theorem place_two_pin_loop_error (f : Nat → ℚ) (cid ctype element label : String) :
    ∀ (fuel : Nat) (st : SceneState) (p : Nat) (e : String),
      (place_two_pin_loop f cid ctype element label fuel st p).out = .error e →
      e = "Could not place " ++ cid ++
        " without overlap. Consider enlarging view_bbox or reducing pad." := by
  intro fuel
  induction fuel with
  | zero =>
    intro st p e h
    simp only [place_two_pin_loop] at h
    exact (Except.error.injEq _ _ ▸ h).symm
  | succ n ih =>
    intro st p e h
    simp only [place_two_pin_loop] at h
    split at h
    · exact ih st _ e h
    · simp at h

theorem place_two_pin_loop_ok (f : Nat → ℚ) (cid ctype element label : String) :
    ∀ (fuel : Nat) (st : SceneState) (p : Nat) (st' : SceneState),
      (place_two_pin_loop f cid ctype element label fuel st p).out = .ok st' →
      ∃ (c : ComponentGT) (ds : List Cmd),
        st'.comps = st.comps ++ [c] ∧
        st'.markers = st.markers ∧
        st'.cmds = st.cmds ++ ds ∧
        st'.occupied = st.occupied ++ [commitBox c] ∧
        c.cid = cid ∧ c.ctype = ctype ∧
        isTwoPinAttrs c.attrs = true ∧
        (∀ d ∈ ds, isHump d = false) ∧
        (∀ old ∈ st.occupied, rects_overlap (commitBox c) old (15/100) = false) ∧
        (ValidS f → compIn c) := by
  intro fuel
  induction fuel with
  | zero => intro st p st' h; simp [place_two_pin_loop] at h
  | succ n ih =>
    intro st p st' h
    simp only [place_two_pin_loop] at h
    split at h
    · exact ih st _ st' h
    · next hcond =>
      dsimp only at h
      rw [Except.ok.injEq] at h
      subst h
      refine ⟨⟨cid, ctype, (place_two_pin_attempt f p).1.p1, (place_two_pin_attempt f p).1.p2,
        (place_two_pin_attempt f p).1.ori,
        CompAttrs.twoPin label element (place_two_pin_attempt f p).1.lead
          (place_two_pin_attempt f p).1.w1 (place_two_pin_attempt f p).1.w2⟩,
        [Cmd.toElem (place_two_pin_attempt f p).1.p1 (place_two_pin_attempt f p).1.p2
          element label,
         Cmd.seg (place_two_pin_attempt f p).1.w1 (place_two_pin_attempt f p).1.p1,
         Cmd.seg (place_two_pin_attempt f p).1.p2 (place_two_pin_attempt f p).1.w2],
        rfl, rfl, rfl, rfl, rfl, rfl, rfl, ?_, ?_, ?_⟩
      · intro d hd
        rcases List.mem_cons.mp hd with rfl | hd'
        · rfl
        rcases List.mem_cons.mp hd' with rfl | hd''
        · rfl
        rcases List.mem_cons.mp hd'' with rfl | hd'''
        · rfl
        · cases hd'''
      · intro old hold
        have hfalse : (st.occupied.any fun old =>
            rects_overlap ((rect_from_points [(place_two_pin_attempt f p).1.p1,
              (place_two_pin_attempt f p).1.p2, (place_two_pin_attempt f p).1.w1,
              (place_two_pin_attempt f p).1.w2] pad).getD (0, 0, 0, 0)) old (15/100)) =
            false := Bool.eq_false_iff.mpr hcond
        have := List.any_eq_false.mp hfalse old hold
        simpa [commitBox] using this
      · intro hf
        have hpts := place_two_pin_attempt_ptIn f hf p
        intro q hq
        simp only [compRecordedPts, List.mem_cons, List.not_mem_nil, or_false] at hq
        rcases hq with rfl | rfl | rfl | rfl
        · exact hpts.1
        · exact hpts.2.1
        · exact hpts.2.2.1
        · exact hpts.2.2.2

theorem place_transformer_loop_tries (f : Nat → ℚ) :
    ∀ (fuel : Nat) (st : SceneState) (p : Nat),
      (place_transformer_loop f fuel st p).tries ≤ fuel := by
  intro fuel
  induction fuel with
  | zero => intro st p; simp [place_transformer_loop]
  | succ n ih =>
    intro st p
    simp only [place_transformer_loop]
    split
    · dsimp only
      have := ih st (randUniform f (vy1 + margin + 2) (vy2 - margin - 2)
        (randUniform f (vx1 + margin + 2) (vx2 - margin - 2) p).2).2
      omega
    · dsimp only
      omega

theorem place_transformer_loop_error (f : Nat → ℚ) :
    ∀ (fuel : Nat) (st : SceneState) (p : Nat) (e : String),
      (place_transformer_loop f fuel st p).out = .error e →
      e = "Could not place transformer without overlap." := by
  intro fuel
  induction fuel with
  | zero =>
    intro st p e h
    simp only [place_transformer_loop] at h
    exact (Except.error.injEq _ _ ▸ h).symm
  | succ n ih =>
    intro st p e h
    simp only [place_transformer_loop] at h
    split at h
    · exact ih st _ e h
    · simp at h

theorem place_transformer_loop_ok (f : Nat → ℚ) :
    ∀ (fuel : Nat) (st : SceneState) (p : Nat) (st' : SceneState),
      (place_transformer_loop f fuel st p).out = .ok st' →
      ∃ (c : ComponentGT) (ds : List Cmd),
        st'.comps = st.comps ++ [c] ∧
        st'.markers = st.markers ∧
        st'.cmds = st.cmds ++ ds ∧
        st'.occupied = st.occupied ++ [commitBox c] ∧
        c.cid = "T1" ∧ c.ctype = "Transformer" ∧
        isTwoPinAttrs c.attrs = false ∧
        (∀ d ∈ ds, isHump d = false) ∧
        (∀ old ∈ st.occupied, rects_overlap (commitBox c) old (15/100) = false) ∧
        (ValidS f → compIn c) := by
  intro fuel
  induction fuel with
  | zero => intro st p st' h; simp [place_transformer_loop] at h
  | succ n ih =>
    intro st p st' h
    simp only [place_transformer_loop] at h
    split at h
    · exact ih st _ st' h
    · next hcond =>
      dsimp only at h
      rw [Except.ok.injEq] at h
      subst h
      refine ⟨⟨"T1", "Transformer",
        ((randUniform f (vx1 + margin + 2) (vx2 - margin - 2) p).1 - 16/10,
         (randUniform f (vy1 + margin + 2) (vy2 - margin - 2)
           (randUniform f (vx1 + margin + 2) (vx2 - margin - 2) p).2).1 + 19/10),
        ((randUniform f (vx1 + margin + 2) (vx2 - margin - 2) p).1 + 16/10,
         (randUniform f (vy1 + margin + 2) (vy2 - margin - 2)
           (randUniform f (vx1 + margin + 2) (vx2 - margin - 2) p).2).1 - 19/10),
        "na", CompAttrs.transformer "T1"
          (randChoice f [9/10, 11/10, 13/10] (9/10)
            (randUniform f (vy1 + margin + 2) (vy2 - margin - 2)
              (randUniform f (vx1 + margin + 2) (vx2 - margin - 2) p).2).2).1⟩,
        ?_, ?_⟩
      case refine_1 =>
        exact [Cmd.transformerNode ((randUniform f (vx1 + margin + 2) (vx2 - margin - 2) p).1,
            (randUniform f (vy1 + margin + 2) (vy2 - margin - 2)
              (randUniform f (vx1 + margin + 2) (vx2 - margin - 2) p).2).1),
          Cmd.transformerLead "A1" (-(randChoice f [9/10, 11/10, 13/10] (9/10)
            (randUniform f (vy1 + margin + 2) (vy2 - margin - 2)
              (randUniform f (vx1 + margin + 2) (vx2 - margin - 2) p).2).2).1),
          Cmd.transformerLead "A2" (-(randChoice f [9/10, 11/10, 13/10] (9/10)
            (randUniform f (vy1 + margin + 2) (vy2 - margin - 2)
              (randUniform f (vx1 + margin + 2) (vx2 - margin - 2) p).2).2).1),
          Cmd.transformerLead "B1" ((randChoice f [9/10, 11/10, 13/10] (9/10)
            (randUniform f (vy1 + margin + 2) (vy2 - margin - 2)
              (randUniform f (vx1 + margin + 2) (vx2 - margin - 2) p).2).2).1),
          Cmd.transformerLead "B2" ((randChoice f [9/10, 11/10, 13/10] (9/10)
            (randUniform f (vy1 + margin + 2) (vy2 - margin - 2)
              (randUniform f (vx1 + margin + 2) (vx2 - margin - 2) p).2).2).1)]
      case refine_2 =>
        have hbox : commitBox ⟨"T1", "Transformer",
            ((randUniform f (vx1 + margin + 2) (vx2 - margin - 2) p).1 - 16/10,
             (randUniform f (vy1 + margin + 2) (vy2 - margin - 2)
               (randUniform f (vx1 + margin + 2) (vx2 - margin - 2) p).2).1 + 19/10),
            ((randUniform f (vx1 + margin + 2) (vx2 - margin - 2) p).1 + 16/10,
             (randUniform f (vy1 + margin + 2) (vy2 - margin - 2)
               (randUniform f (vx1 + margin + 2) (vx2 - margin - 2) p).2).1 - 19/10),
            "na", CompAttrs.transformer "T1"
              (randChoice f [9/10, 11/10, 13/10] (9/10)
                (randUniform f (vy1 + margin + 2) (vy2 - margin - 2)
                  (randUniform f (vx1 + margin + 2) (vx2 - margin - 2) p).2).2).1⟩ =
            ((randUniform f (vx1 + margin + 2) (vx2 - margin - 2) p).1 - 22/10,
             (randUniform f (vy1 + margin + 2) (vy2 - margin - 2)
               (randUniform f (vx1 + margin + 2) (vx2 - margin - 2) p).2).1 - 22/10,
             (randUniform f (vx1 + margin + 2) (vx2 - margin - 2) p).1 + 22/10,
             (randUniform f (vy1 + margin + 2) (vy2 - margin - 2)
               (randUniform f (vx1 + margin + 2) (vx2 - margin - 2) p).2).1 + 22/10) := by
          simp only [commitBox, Prod.mk.injEq]
          refine ⟨by ring, by ring, by ring, by ring⟩
        refine ⟨rfl, rfl, rfl, by rw [hbox], rfl, rfl, rfl, ?_, ?_, ?_⟩
        · intro d hd
          rcases List.mem_cons.mp hd with rfl | hd
          · rfl
          rcases List.mem_cons.mp hd with rfl | hd
          · rfl
          rcases List.mem_cons.mp hd with rfl | hd
          · rfl
          rcases List.mem_cons.mp hd with rfl | hd
          · rfl
          rcases List.mem_cons.mp hd with rfl | hd
          · rfl
          · cases hd
        · intro old hold
          have hfalse := Bool.eq_false_iff.mpr hcond
          have := List.any_eq_false.mp hfalse old hold
          rw [hbox]
          simpa using this
        · intro hf
          have hux := randUniform_bounds f hf (vx1 + margin + 2) (vx2 - margin - 2) p
            (by rw [vx1_eq, vx2_eq, margin_eq]; norm_num)
          have huy := randUniform_bounds f hf (vy1 + margin + 2) (vy2 - margin - 2)
            (randUniform f (vx1 + margin + 2) (vx2 - margin - 2) p).2
            (by rw [vy1_eq, vy2_eq, margin_eq]; norm_num)
          intro q hq
          simp only [compRecordedPts, List.mem_cons, List.not_mem_nil, or_false] at hq
          rcases hq with rfl | rfl <;> (unfold ptIn; dsimp only) <;>
            refine ⟨by linarith [hux.1, hux.2, vx1_eq, margin_eq],
              by linarith [hux.1, hux.2, vx2_eq, margin_eq],
              by linarith [huy.1, huy.2, vy1_eq, margin_eq],
              by linarith [huy.1, huy.2, vy2_eq, margin_eq]⟩

theorem place_remaining_ok (f : Nat → ℚ) :
    ∀ (specs : List (String × String × String × String)) (st : SceneState) (p : Nat)
      (st' : SceneState) (p' : Nat),
      place_remaining f specs st p = (.ok st', p') →
      ∃ (cs : List ComponentGT) (ds : List Cmd),
        st'.comps = st.comps ++ cs ∧
        st'.markers = st.markers ∧
        st'.cmds = st.cmds ++ ds ∧
        st'.occupied = st.occupied ++ cs.map commitBox ∧
        cs.length = (specs.filter fun s => !(s.1 == "T1")).length ∧
        (∀ c ∈ cs, isTwoPinAttrs c.attrs = true) ∧
        (∀ d ∈ ds, isHump d = false) ∧
        (ValidS f → ∀ c ∈ cs, compIn c) ∧
        (List.Pairwise (fun a b => rects_overlap a b (15/100) = false) st.occupied →
          List.Pairwise (fun a b => rects_overlap a b (15/100) = false) st'.occupied) := by
  intro specs
  induction specs with
  | nil =>
    intro st p st' p' h
    simp only [place_remaining, Prod.mk.injEq, Except.ok.injEq] at h
    obtain ⟨rfl, rfl⟩ := h
    exact ⟨[], [], by simp, rfl, by simp, by simp, rfl, by simp, by simp,
      fun _ => by simp, id⟩
  | cons s rest ih =>
    intro st p st' p' h
    simp only [place_remaining] at h
    by_cases hT : s.1 = "T1"
    · rw [if_pos hT] at h
      obtain ⟨cs, ds, h1, h2, h3, h4, h5, h6, h7, h8, h9⟩ := ih st p st' p' h
      refine ⟨cs, ds, h1, h2, h3, h4, ?_, h6, h7, h8, h9⟩
      rw [h5]
      simp [List.filter_cons, hT]
    · rw [if_neg hT] at h
      cases hout : (place_two_pin f s.1 s.2.1 s.2.2.1 s.2.2.2 st p).out with
      | error e => rw [hout] at h; simp at h
      | ok st1 =>
        rw [hout] at h
        obtain ⟨c, ds1, hc1, hc2, hc3, hc4, _, _, hc7, hc8, hc9, hc10⟩ :=
          place_two_pin_loop_ok f s.1 s.2.1 s.2.2.1 s.2.2.2 4000 st p st1 hout
        obtain ⟨cs, ds2, h1, h2, h3, h4, h5, h6, h7, h8, h9⟩ :=
          ih st1 _ st' p' h
        refine ⟨c :: cs, ds1 ++ ds2, ?_, ?_, ?_, ?_, ?_, ?_, ?_, ?_, ?_⟩
        · rw [h1, hc1]; simp
        · rw [h2, hc2]
        · rw [h3, hc3]; simp
        · rw [h4, hc4]; simp
        · rw [List.length_cons, h5]
          simp [List.filter_cons, hT]
        · intro x hx
          rcases List.mem_cons.mp hx with rfl | hx'
          · exact hc7
          · exact h6 x hx'
        · intro d hd
          rcases List.mem_append.mp hd with hd' | hd'
          · exact hc8 d hd'
          · exact h7 d hd'
        · intro hf x hx
          rcases List.mem_cons.mp hx with rfl | hx'
          · exact hc10 hf
          · exact h8 hf x hx'
        · intro hpw
          apply h9
          rw [hc4, List.pairwise_append]
          refine ⟨hpw, by simp, ?_⟩
          intro a ha b hb
          rcases List.mem_singleton.mp hb with rfl
          rw [rects_overlap_symm]
          exact hc9 a ha

theorem add_junction_spec (f : Nat → ℚ) (st : SceneState) (p : Nat) :
    ∃ j : Pt,
      (add_junction f st p).1.comps = st.comps ∧
      (add_junction f st p).1.occupied = st.occupied ∧
      (add_junction f st p).1.markers =
        st.markers ++ [⟨"JUNC1", "junction", j, MarkerAttrs.junction 3⟩] ∧
      (add_junction f st p).1.cmds = st.cmds ++
        [Cmd.seg (j.1 - 2, j.2) (j.1, j.2), Cmd.seg (j.1, j.2) (j.1 + 2, j.2),
         Cmd.seg (j.1, j.2) (j.1, j.2 + 2), Cmd.dot (j.1, j.2) (17/10)] ∧
      (ValidS f → ptIn j) := by
  refine ⟨((randUniform f (vx1 + margin + 25/10) (vx2 - margin - 25/10) p).1,
    (randUniform f (vy1 + margin + 25/10) (vy2 - margin - 25/10)
      (randUniform f (vx1 + margin + 25/10) (vx2 - margin - 25/10) p).2).1),
    rfl, rfl, rfl, rfl, ?_⟩
  intro hf
  have hux := randUniform_bounds f hf (vx1 + margin + 25/10) (vx2 - margin - 25/10) p
    (by rw [vx1_eq, vx2_eq, margin_eq]; norm_num)
  have huy := randUniform_bounds f hf (vy1 + margin + 25/10) (vy2 - margin - 25/10)
    (randUniform f (vx1 + margin + 25/10) (vx2 - margin - 25/10) p).2
    (by rw [vy1_eq, vy2_eq, margin_eq]; norm_num)
  unfold ptIn
  dsimp only
  refine ⟨by linarith [hux.1, vx1_eq, margin_eq], by linarith [hux.2, vx2_eq, margin_eq],
    by linarith [huy.1, vy1_eq, margin_eq], by linarith [huy.2, vy2_eq, margin_eq]⟩

theorem add_wire_jump_spec (f : Nat → ℚ) (st : SceneState) (p : Nat) :
    ∃ w : Pt,
      (add_wire_jump f st p).1.comps = st.comps ∧
      (add_wire_jump f st p).1.occupied = st.occupied ∧
      (add_wire_jump f st p).1.markers =
        st.markers ++ [⟨"JUMP1", "wire_jump", w, MarkerAttrs.wireJump (30/100) (30/100)⟩] ∧
      (add_wire_jump f st p).1.cmds = st.cmds ++
        [Cmd.seg (w.1, w.2 - 22/10) (w.1, w.2 + 22/10),
         Cmd.seg (w.1 - 24/10, w.2) (w.1 - 30/100, w.2),
         Cmd.hump (w.1 - 30/100) (w.1 + 30/100) w.2 (30/100),
         Cmd.seg (w.1 + 30/100, w.2) (w.1 + 24/10, w.2)] ∧
      (ValidS f → ptIn w) := by
  refine ⟨((randUniform f (vx1 + margin + 3) (vx2 - margin - 3) p).1,
    (randUniform f (vy1 + margin + 3) (vy2 - margin - 3)
      (randUniform f (vx1 + margin + 3) (vx2 - margin - 3) p).2).1),
    rfl, rfl, rfl, rfl, ?_⟩
  intro hf
  have hux := randUniform_bounds f hf (vx1 + margin + 3) (vx2 - margin - 3) p
    (by rw [vx1_eq, vx2_eq, margin_eq]; norm_num)
  have huy := randUniform_bounds f hf (vy1 + margin + 3) (vy2 - margin - 3)
    (randUniform f (vx1 + margin + 3) (vx2 - margin - 3) p).2
    (by rw [vy1_eq, vy2_eq, margin_eq]; norm_num)
  unfold ptIn
  dsimp only
  refine ⟨by linarith [hux.1, vx1_eq, margin_eq], by linarith [hux.2, vx2_eq, margin_eq],
    by linarith [huy.1, vy1_eq, margin_eq], by linarith [huy.2, vy2_eq, margin_eq]⟩

theorem generate_scene_steps_ok (f : Nat → ℚ) (lw : ℚ) (st0 : SceneState) (q : Nat)
    (sc : Scene) (p' : Nat)
    (h0c : st0.comps = []) (h0m : st0.markers = []) (h0d : st0.cmds = [])
    (h0o : st0.occupied = [])
    (h : generate_scene_steps f lw st0 q = (.ok sc, p')) :
    ∃ (tc : ComponentGT) (cs : List ComponentGT) (ds : List Cmd) (j w : Pt),
      sc.comps = tc :: cs ∧
      tc.cid = "T1" ∧ tc.ctype = "Transformer" ∧ isTwoPinAttrs tc.attrs = false ∧
      (∀ c ∈ cs, isTwoPinAttrs c.attrs = true) ∧
      cs.length = 10 ∧
      sc.markers = [⟨"JUNC1", "junction", j, MarkerAttrs.junction 3⟩,
                    ⟨"JUMP1", "wire_jump", w, MarkerAttrs.wireJump (30/100) (30/100)⟩] ∧
      List.Pairwise (fun a b => rects_overlap a b (15/100) = false)
        (sc.comps.map commitBox) ∧
      sc.body = Cmd.boundingBoxPath view_bbox :: (ds ++
        [Cmd.seg (w.1, w.2 - 22/10) (w.1, w.2 + 22/10),
         Cmd.seg (w.1 - 24/10, w.2) (w.1 - 30/100, w.2),
         Cmd.hump (w.1 - 30/100) (w.1 + 30/100) w.2 (30/100),
         Cmd.seg (w.1 + 30/100, w.2) (w.1 + 24/10, w.2)]) ∧
      (∀ d ∈ ds, isHump d = false) ∧
      (ValidS f → (∀ c ∈ sc.comps, compIn c) ∧ ptIn j ∧ ptIn w) := by
  simp only [generate_scene_steps] at h
  cases hr1 : (place_transformer_node f st0 q).out with
  | error e => rw [hr1] at h; simp at h
  | ok st1 =>
    rw [hr1] at h
    dsimp only at h
    cases hrem : place_remaining f component_specs st1
        ((place_transformer_node f st0 q).pos) with
    | mk o2 p2 =>
      rw [hrem] at h
      cases o2 with
      | error e => simp at h
      | ok st2 =>
        simp only [Prod.mk.injEq, Except.ok.injEq] at h
        obtain ⟨hsc, rfl⟩ := h
        obtain ⟨tc, ds0, ht1, ht2, ht3, ht4, ht5, ht6, ht7, ht8, _, ht10⟩ :=
          place_transformer_loop_ok f 4000 st0 _ st1 hr1
        obtain ⟨cs, ds2, hp1, hp2, hp3, hp4, hp5, hp6, hp7, hp8, hp9⟩ :=
          place_remaining_ok f component_specs st1 _ st2 p2 hrem
        obtain ⟨j, hj1, hj2, hj3, hj4, hj5⟩ := add_junction_spec f st2 p2
        obtain ⟨w, hw1, hw2, hw3, hw4, hw5⟩ :=
          add_wire_jump_spec f (add_junction f st2 p2).1 (add_junction f st2 p2).2
        refine ⟨tc, cs, st2.cmds ++
          [Cmd.seg (j.1 - 2, j.2) (j.1, j.2), Cmd.seg (j.1, j.2) (j.1 + 2, j.2),
           Cmd.seg (j.1, j.2) (j.1, j.2 + 2), Cmd.dot (j.1, j.2) (17/10)],
          j, w, ?_, ht5, ht6, ht7, hp6, ?_, ?_, ?_, ?_, ?_, ?_⟩
        · rw [← hsc]
          dsimp only
          rw [hw1, hj1, hp1, ht1, h0c]
          simp
        · rw [hp5]
          rfl
        · rw [← hsc]
          dsimp only
          rw [hw3, hj3, hp2, ht2, h0m]
          simp
        · rw [← hsc]
          dsimp only
          have hocc2 : st2.occupied = commitBox tc :: cs.map commitBox := by
            rw [hp4, ht4, h0o]
            simp
          have hcomps2 : st2.comps = tc :: cs := by
            rw [hp1, ht1, h0c]
            simp
          have hmap : (st2.comps.map commitBox) = st2.occupied := by
            rw [hcomps2, hocc2]
            simp
          rw [hw1, hj1, hcomps2]
          have hpw : List.Pairwise (fun a b => rects_overlap a b (15/100) = false)
              st2.occupied := by
            apply hp9
            rw [ht4, h0o]
            simp
          rw [← hcomps2, hmap]
          exact hpw
        · rw [← hsc]
          dsimp only
          rw [hw4, hj4]
        · intro d hd
          rcases List.mem_append.mp hd with hd' | hd'
          · have hcmds2 : st2.cmds = ds0 ++ ds2 := by
              rw [hp3, ht3, h0d]
              simp
            rw [hcmds2] at hd'
            rcases List.mem_append.mp hd' with hd'' | hd''
            · exact ht8 d hd''
            · exact hp7 d hd''
          · rcases List.mem_cons.mp hd' with rfl | hd''
            · rfl
            rcases List.mem_cons.mp hd'' with rfl | hd''
            · rfl
            rcases List.mem_cons.mp hd'' with rfl | hd''
            · rfl
            rcases List.mem_cons.mp hd'' with rfl | hd''
            · rfl
            · cases hd''
        · intro hf
          refine ⟨?_, hj5 hf, hw5 hf⟩
          intro c hc
          rw [← hsc] at hc
          dsimp only at hc
          rw [hw1, hj1, hp1, ht1, h0c] at hc
          simp only [List.nil_append, List.singleton_append, List.mem_cons] at hc
          rcases hc with rfl | hc'
          · exact ht10 hf
          · exact hp8 hf c hc'

theorem generate_scene_ok (f : Nat → ℚ) (p : Nat) (sc : Scene) (p' : Nat)
    (h : generate_scene_with_leads f p = (.ok sc, p')) :
    ∃ (tc : ComponentGT) (cs : List ComponentGT) (ds : List Cmd) (j w : Pt),
      sc.comps = tc :: cs ∧
      tc.cid = "T1" ∧ tc.ctype = "Transformer" ∧ isTwoPinAttrs tc.attrs = false ∧
      (∀ c ∈ cs, isTwoPinAttrs c.attrs = true) ∧
      cs.length = 10 ∧
      sc.markers = [⟨"JUNC1", "junction", j, MarkerAttrs.junction 3⟩,
                    ⟨"JUMP1", "wire_jump", w, MarkerAttrs.wireJump (30/100) (30/100)⟩] ∧
      List.Pairwise (fun a b => rects_overlap a b (15/100) = false)
        (sc.comps.map commitBox) ∧
      sc.body = Cmd.boundingBoxPath view_bbox :: (ds ++
        [Cmd.seg (w.1, w.2 - 22/10) (w.1, w.2 + 22/10),
         Cmd.seg (w.1 - 24/10, w.2) (w.1 - 30/100, w.2),
         Cmd.hump (w.1 - 30/100) (w.1 + 30/100) w.2 (30/100),
         Cmd.seg (w.1 + 30/100, w.2) (w.1 + 24/10, w.2)]) ∧
      (∀ d ∈ ds, isHump d = false) ∧
      (ValidS f → (∀ c ∈ sc.comps, compIn c) ∧ ptIn j ∧ ptIn w) := by
  have h' : generate_scene_steps f ((randChoice f [8/10, 1, 12/10] (8/10) p).1)
      ⟨[], [], [], []⟩ ((randChoice f [8/10, 1, 12/10] (8/10) p).2) = (.ok sc, p') := h
  exact generate_scene_steps_ok f _ _ _ sc p' rfl rfl rfl rfl h'

/-! ### The concrete successful run on `cstream` -/

theorem getD_pred {P : ℚ → Prop} (l : List ℚ) (d : ℚ) (hl : ∀ x ∈ l, P x) (hd : P d)
    (i : Nat) : P (l.getD i d) := by
  rcases Nat.lt_or_ge i l.length with hlt | hge
  · rw [List.getD_eq_getElem l d hlt]
    exact hl _ (List.getElem_mem hlt)
  · rw [List.getD_eq_default l d hge]
    exact hd

theorem cstream_valid : ValidS cstream := by
  intro i
  unfold cstream
  have hl : ∀ x ∈ cvals, 0 ≤ x ∧ x < 1 := by
    intro x hx
    have hb : ∀ y ∈ cvals, decide (0 ≤ y ∧ y < 1) = true := by
      with_unfolding_all decide
    simpa using of_decide_eq_true (hb x hx)
  exact @getD_pred (fun y => 0 ≤ y ∧ y < 1) cvals (1/2) hl (by norm_num) i

theorem cscene_eq : generate_scene_with_leads cstream 0 = (.ok cscene, 58) := by
  with_unfolding_all rfl

theorem cscene_comps_len : cscene.comps.length = 11 := by
  with_unfolding_all rfl

/-! ### C1: non-overlap -/

/-- C1 (amended): in every scene of a successful run, all pairs of committed
occupied boxes are non-overlapping at tolerance `0.15`; for a two-terminal
element that box is the `0.85`-padded bounding box of its recorded terminals
and lead ends (exactly the spec's padded record box), while for the
transformer it is the committed `±2.2` footprint around its anchor — the
`0.85`-padding of the transformer's recorded corner points sticks out beyond
the committed footprint, so the claim holds with the committed boxes, not
with the record-padded box of the transformer. -/
theorem claim1_nonoverlap_amended :
    ∀ (f : Nat → ℚ) (p : Nat) (sc : Scene) (p' : Nat),
      generate_scene_with_leads f p = (.ok sc, p') →
      ∀ (i k : Nat), i < sc.comps.length → k < sc.comps.length → i ≠ k →
        rects_overlap (commitBox (sc.comps.getD i defaultComp))
          (commitBox (sc.comps.getD k defaultComp)) (15/100) = false := by
  intro f p sc p' h i k hi hk hik
  obtain ⟨tc, cs, ds, j, w, _, _, _, _, _, _, _, h8, _, _, _⟩ :=
    generate_scene_ok f p sc p' h
  have hpw := List.pairwise_iff_getElem.mp h8
  rw [List.getD_eq_getElem sc.comps defaultComp hi,
    List.getD_eq_getElem sc.comps defaultComp hk]
  rcases Nat.lt_or_ge i k with hlt | hge
  · have hr := hpw i k (by simpa using hi) (by simpa using hk) hlt
    simpa using hr
  · have hlt' : k < i := Nat.lt_of_le_of_ne hge (Ne.symm hik)
    have hr := hpw k i (by simpa using hk) (by simpa using hi) hlt'
    rw [rects_overlap_symm]
    simpa using hr

theorem claim1_witness :
    rects_overlap (commitBox (cscene.comps.getD 0 defaultComp))
      (commitBox (cscene.comps.getD 1 defaultComp)) (15/100) = false :=
  claim1_nonoverlap_amended cstream 0 cscene 58 cscene_eq 0 1
    (by rw [cscene_comps_len]; omega) (by rw [cscene_comps_len]; omega) (by omega)

/-- C1 counterexample: the claim as stated — padded boxes of the *recorded
point sets* (for the transformer, its two recorded corner points padded by
`0.85`) pairwise non-overlapping at tolerance `0.15` — is false: on the
concrete valid stream `cstream` the run succeeds and the padded record box of
the transformer (first component) overlaps the padded record box of `AC1`
(second component) at tolerance `0.15`, because the transformer's padded
record box extends beyond the `±2.2` footprint that the placement search
actually reserved. -/
theorem claim1_counterexample :
    ¬ (∀ (f : Nat → ℚ) (p : Nat) (sc : Scene) (p' : Nat), ValidS f →
        generate_scene_with_leads f p = (.ok sc, p') →
        ∀ (i k : Nat), i < sc.comps.length → k < sc.comps.length → i ≠ k →
          rects_overlap (claimBox (sc.comps.getD i defaultComp))
            (claimBox (sc.comps.getD k defaultComp)) (15/100) = false) := by
  intro h
  have hfalse := h cstream 0 cscene 58 cstream_valid cscene_eq 0 1
    (by rw [cscene_comps_len]; omega) (by rw [cscene_comps_len]; omega) (by omega)
  have htrue : rects_overlap (claimBox (cscene.comps.getD 0 defaultComp))
      (claimBox (cscene.comps.getD 1 defaultComp)) (15/100) = true := by
    with_unfolding_all rfl
  rw [hfalse] at htrue
  exact Bool.false_ne_true htrue

/-! ### C2: containment -/

/-- C2: in every scene produced by a successful run on a valid stream, every
coordinate recorded in every `ComponentGT` (`p1`, `p2`, and the two lead
endpoints of each two-terminal element) and the center of every `MarkerGT`
lies within the canvas bounds `(-10, -8)`–`(10, 8)`. -/
theorem claim2_containment :
    ∀ (f : Nat → ℚ) (p : Nat) (sc : Scene) (p' : Nat), ValidS f →
      generate_scene_with_leads f p = (.ok sc, p') →
      (∀ c ∈ sc.comps, compIn c) ∧ (∀ m ∈ sc.markers, ptIn m.center) := by
  intro f p sc p' hf h
  obtain ⟨tc, cs, ds, j, w, _, _, _, _, _, _, h7, _, _, _, h11⟩ :=
    generate_scene_ok f p sc p' h
  obtain ⟨hcomp, hj, hw⟩ := h11 hf
  refine ⟨hcomp, ?_⟩
  intro m hm
  rw [h7] at hm
  rcases List.mem_cons.mp hm with rfl | hm'
  · exact hj
  rcases List.mem_cons.mp hm' with rfl | hm''
  · exact hw
  · cases hm''

theorem claim2_witness :
    (∀ c ∈ cscene.comps, compIn c) ∧ (∀ m ∈ cscene.markers, ptIn m.center) :=
  claim2_containment cstream 0 cscene 58 cstream_valid cscene_eq

/-! ### C3: completeness -/

/-- C3: every scene of a successful run has exactly 11 `ComponentGT` records
(the fixed catalogue count) and exactly 2 `MarkerGT` records, one of kind
`junction` and one of kind `wire_jump`. -/
theorem claim3_completeness :
    ∀ (f : Nat → ℚ) (p : Nat) (sc : Scene) (p' : Nat),
      generate_scene_with_leads f p = (.ok sc, p') →
      sc.comps.length = 11 ∧ sc.markers.length = 2 ∧
      (sc.markers.filter fun m => m.mtype == "junction").length = 1 ∧
      (sc.markers.filter fun m => m.mtype == "wire_jump").length = 1 := by
  intro f p sc p' h
  obtain ⟨tc, cs, ds, j, w, h1, _, _, _, _, h6, h7, _, _, _, _⟩ :=
    generate_scene_ok f p sc p' h
  refine ⟨by rw [h1]; simp [h6], by rw [h7]; rfl, ?_, ?_⟩
  · rw [h7]
    simp [List.filter]
  · rw [h7]
    simp [List.filter]

theorem claim3_witness :
    cscene.comps.length = 11 ∧ cscene.markers.length = 2 ∧
    (cscene.markers.filter fun m => m.mtype == "junction").length = 1 ∧
    (cscene.markers.filter fun m => m.mtype == "wire_jump").length = 1 :=
  claim3_completeness cstream 0 cscene 58 cscene_eq

/-! ### C9: transformer first -/

/-- C9: in every scene of a successful run the transformer is placed before
all two-terminal elements: its ground-truth record (cid `T1`, ctype
`Transformer`) is the head of the component list and every other record
carries two-pin attributes. -/
theorem claim9_transformer_first :
    ∀ (f : Nat → ℚ) (p : Nat) (sc : Scene) (p' : Nat),
      generate_scene_with_leads f p = (.ok sc, p') →
      ∃ (tc : ComponentGT) (cs : List ComponentGT),
        sc.comps = tc :: cs ∧ tc.cid = "T1" ∧ tc.ctype = "Transformer" ∧
        isTwoPinAttrs tc.attrs = false ∧ ∀ c ∈ cs, isTwoPinAttrs c.attrs = true := by
  intro f p sc p' h
  obtain ⟨tc, cs, ds, j, w, h1, h2, h3, h4, h5, _, _, _, _, _, _⟩ :=
    generate_scene_ok f p sc p' h
  exact ⟨tc, cs, h1, h2, h3, h4, h5⟩

theorem claim9_witness :
    ∃ (tc : ComponentGT) (cs : List ComponentGT),
      cscene.comps = tc :: cs ∧ tc.cid = "T1" ∧ tc.ctype = "Transformer" ∧
      isTwoPinAttrs tc.attrs = false ∧ ∀ c ∈ cs, isTwoPinAttrs c.attrs = true :=
  claim9_transformer_first cstream 0 cscene 58 cscene_eq

/-! ### C10: wire-jump shape -/

/-- C10: in every scene of a successful run the wire-jump motif uses the
fixed constants `gap = 0.30` and `hump_h = 0.30` (never sampled, identical
across scenes): the `JUMP1` marker records `wireJump 0.30 0.30`, the two
horizontal wire segments end exactly at `center.x ± 0.30`, and exactly one
hump primitive appears in the drawing body, bridging the gap. -/
theorem claim10_wire_jump_shape :
    ∀ (f : Nat → ℚ) (p : Nat) (sc : Scene) (p' : Nat),
      generate_scene_with_leads f p = (.ok sc, p') →
      ∃ (w : Pt) (pre : List Cmd),
        sc.markers.getLast? =
          some ⟨"JUMP1", "wire_jump", w, MarkerAttrs.wireJump (30/100) (30/100)⟩ ∧
        sc.body = pre ++
          [Cmd.seg (w.1, w.2 - 22/10) (w.1, w.2 + 22/10),
           Cmd.seg (w.1 - 24/10, w.2) (w.1 - 30/100, w.2),
           Cmd.hump (w.1 - 30/100) (w.1 + 30/100) w.2 (30/100),
           Cmd.seg (w.1 + 30/100, w.2) (w.1 + 24/10, w.2)] ∧
        (∀ d ∈ pre, isHump d = false) ∧
        sc.body.countP isHump = 1 := by
  intro f p sc p' h
  obtain ⟨tc, cs, ds, j, w, _, _, _, _, _, _, h7, _, h9, h10, _⟩ :=
    generate_scene_ok f p sc p' h
  have hds : ds.countP isHump = 0 := by
    rw [List.countP_eq_zero]
    intro a ha
    simp [h10 a ha]
  refine ⟨w, Cmd.boundingBoxPath view_bbox :: ds, ?_, ?_, ?_, ?_⟩
  · rw [h7]
    rfl
  · rw [h9]
    simp
  · intro d hd
    rcases List.mem_cons.mp hd with rfl | hd'
    · rfl
    · exact h10 d hd'
  · rw [h9]
    simp only [List.countP_cons, List.countP_append, hds, isHump]
    norm_num

/-! ### The concrete failing first attempt on `failS` -/

theorem place_two_pin_attempt_congr (f₁ f₂ : Nat → ℚ) (p : Nat)
    (h : ∀ m, p ≤ m → m < p + 5 → f₁ m = f₂ m) :
    place_two_pin_attempt f₁ p = place_two_pin_attempt f₂ p := by
  have e0 : f₁ p = f₂ p := h p (by omega) (by omega)
  have e1 : f₁ (p + 1) = f₂ (p + 1) := h _ (by omega) (by omega)
  have e2 : f₁ (p + 1 + 1) = f₂ (p + 1 + 1) := h _ (by omega) (by omega)
  have e3 : f₁ (p + 1 + 1 + 1) = f₂ (p + 1 + 1 + 1) := h _ (by omega) (by omega)
  have e4 : f₁ (p + 1 + 1 + 1 + 1) = f₂ (p + 1 + 1 + 1 + 1) := h _ (by omega) (by omega)
  simp only [place_two_pin_attempt, randChoice, randUniform, e0, e1, e2, e3, e4]

theorem place_two_pin_attempt_snd (f : Nat → ℚ) (p : Nat) :
    (place_two_pin_attempt f p).2 = p + 5 := by
  simp only [place_two_pin_attempt, randChoice, randUniform]
  split <;> rfl

theorem place_two_pin_attempt_const_fst (p : Nat) :
    (place_two_pin_attempt (fun _ => (1 : ℚ)/2) p).1 =
      (place_two_pin_attempt (fun _ => (1 : ℚ)/2) 0).1 := by
  simp only [place_two_pin_attempt, randChoice, randUniform]
  split <;> rfl

theorem failS_attempt (p : Nat) (h1 : 4 ≤ p) (h2 : p + 5 ≤ 20004) :
    place_two_pin_attempt failS p =
      (⟨(0, -1), (0, 1), (0, -2), (0, 2), "v", 2, 1⟩, p + 5) := by
  have hcongr : place_two_pin_attempt failS p =
      place_two_pin_attempt (fun _ => (1 : ℚ)/2) p := by
    apply place_two_pin_attempt_congr
    intro m hm1 hm2
    unfold failS
    rw [if_neg (by omega), if_pos (by omega)]
  have h1c : (place_two_pin_attempt (fun _ => (1 : ℚ)/2) p).1 =
      ⟨(0, -1), (0, 1), (0, -2), (0, 2), "v", 2, 1⟩ := by
    rw [place_two_pin_attempt_const_fst p]
    with_unfolding_all rfl
  have h2c : (place_two_pin_attempt (fun _ => (1 : ℚ)/2) p).2 = p + 5 :=
    place_two_pin_attempt_snd _ p
  calc place_two_pin_attempt failS p = place_two_pin_attempt (fun _ => (1 : ℚ)/2) p :=
        hcongr
    _ = ((place_two_pin_attempt (fun _ => (1 : ℚ)/2) p).1,
         (place_two_pin_attempt (fun _ => (1 : ℚ)/2) p).2) := rfl
    _ = (⟨(0, -1), (0, 1), (0, -2), (0, 2), "v", 2, 1⟩, p + 5) := by rw [h1c, h2c]

theorem place_two_pin_loop_reject_step (f : Nat → ℚ) (cid ctype element label : String)
    (fuel : Nat) (st : SceneState) (p : Nat) (t : TwoPinTry) (p' : Nat)
    (hatt : place_two_pin_attempt f p = (t, p'))
    (hguard : (st.occupied.any fun old => rects_overlap
      ((rect_from_points [t.p1, t.p2, t.w1, t.w2] pad).getD (0, 0, 0, 0))
      old (15/100)) = true) :
    place_two_pin_loop f cid ctype element label (fuel+1) st p =
      ⟨(place_two_pin_loop f cid ctype element label fuel st p').out,
       (place_two_pin_loop f cid ctype element label fuel st p').pos,
       (place_two_pin_loop f cid ctype element label fuel st p').tries + 1⟩ := by
  simp only [place_two_pin_loop, hatt]
  rw [hguard]
  simp

theorem failS_loop_err : ∀ (fuel p : Nat), 4 ≤ p → p + 5 * fuel ≤ 20004 →
    place_two_pin_loop failS "AC1" "ACSource" "sV" "AC" fuel failSt1 p =
      ⟨.error msgAC1, p + 5 * fuel, fuel⟩ := by
  intro fuel
  induction fuel with
  | zero =>
    intro p h1 h2
    with_unfolding_all rfl
  | succ n ih =>
    intro p h1 h2
    have hatt := failS_attempt p h1 (by omega)
    have hstep := place_two_pin_loop_reject_step failS "AC1" "ACSource" "sV" "AC" n
      failSt1 p ⟨(0, -1), (0, 1), (0, -2), (0, 2), "v", 2, 1⟩ (p + 5) hatt
      (by with_unfolding_all rfl)
    rw [hstep, ih (p + 5) (by omega) (by omega)]
    simp only [PlaceResult.mk.injEq, true_and, and_true]
    omega

theorem failS_transformer :
    place_transformer_node failS ⟨[], [], [], []⟩ 1 = ⟨.ok failSt1, 4, 1⟩ := by
  with_unfolding_all rfl

theorem place_remaining_err_head (f : Nat → ℚ) (s : String × String × String × String)
    (rest : List (String × String × String × String)) (st : SceneState) (p : Nat)
    (e : String) (p' : Nat) (hT : ¬ s.1 = "T1")
    (h : place_two_pin f s.1 s.2.1 s.2.2.1 s.2.2.2 st p = ⟨.error e, p', 4000⟩) :
    place_remaining f (s :: rest) st p = (.error e, p') := by
  simp only [place_remaining]
  rw [if_neg hT, h]

theorem failS_remaining :
    place_remaining failS component_specs failSt1 4 = (.error msgAC1, 20004) := by
  have hloop : place_two_pin failS "AC1" "ACSource" "sV" "AC" failSt1 4 =
      ⟨.error msgAC1, 20004, 4000⟩ := failS_loop_err 4000 4 (by omega) (by omega)
  have hspec : component_specs = ("AC1", "ACSource", "sV", "AC") ::
      [("BAT1", "Battery", "battery", "BAT"), ("C1", "Capacitor", "C", "C1"),
       ("D1", "Diode", "D", "D1"), ("V1", "VoltageSource", "V", "V1"),
       ("L1", "Inductor", "L", "L1"), ("I1", "CurrentSource", "I", "I1"),
       ("SW_ID", "IdealSwitch", "switch", "SW"), ("SW_R", "RealSwitch", "switch", "SWr"),
       ("T1", "Transformer", "transformer", "T1"), ("R1", "Resistor", "R", "R1")] := rfl
  rw [hspec]
  exact place_remaining_err_head failS _ _ failSt1 4 msgAC1 20004 (by decide) hloop

theorem generate_scene_steps_err1 (f : Nat → ℚ) (lw : ℚ) (st0 : SceneState) (q : Nat)
    (st1 : SceneState) (q1 : Nat)
    (htr : place_transformer_node f st0 q = ⟨.ok st1, q1, 1⟩)
    (e : String) (q2 : Nat)
    (hrem : place_remaining f component_specs st1 q1 = (.error e, q2)) :
    generate_scene_steps f lw st0 q = (.error e, q2) := by
  simp only [generate_scene_steps]
  rw [htr]
  dsimp only
  rw [hrem]

theorem gen_failS_err : generate_scene_with_leads failS 0 = (.error msgAC1, 20004) := by
  show generate_scene_steps failS ((randChoice failS [8/10, 1, 12/10] (8/10) 0).1)
      ⟨[], [], [], []⟩ ((randChoice failS [8/10, 1, 12/10] (8/10) 0).2) =
    (.error msgAC1, 20004)
  exact generate_scene_steps_err1 failS _ _ _ failSt1 4 failS_transformer msgAC1 20004
    failS_remaining

theorem gen_failS_ok :
    generate_scene_with_leads failS 20004 = (.ok cscene, 20062) := by
  with_unfolding_all rfl

/-! ### Lemmas about the whole-scene retry loop -/

theorem retry_loop_tries (g : Nat → Except String Scene × Nat) :
    ∀ (n : Nat) (last : Option String) (p : Nat), (retry_loop g n last p).tries ≤ n := by
  intro n
  induction n with
  | zero =>
    intro last p
    rw [retry_loop.eq_1]
  | succ n ih =>
    intro last p
    rw [retry_loop.eq_2]
    cases hg : g p with
    | mk o q =>
      cases o with
      | ok sc =>
        dsimp only
        omega
      | error e =>
        dsimp only
        have := ih (some e) q
        omega

theorem retry_loop_ok_step (g : Nat → Except String Scene × Nat) (n : Nat)
    (last : Option String) (p : Nat) (sc : Scene) (p' : Nat)
    (h : g p = (.ok sc, p')) : retry_loop g (n+1) last p = ⟨.ok sc, p', 1⟩ := by
  rw [retry_loop.eq_2, h]

theorem retry_loop_err_step (g : Nat → Except String Scene × Nat) (n : Nat)
    (last : Option String) (p : Nat) (e : String) (p' : Nat)
    (h : g p = (.error e, p')) :
    retry_loop g (n+1) last p =
      ⟨(retry_loop g n (some e) p').out, (retry_loop g n (some e) p').pos,
       (retry_loop g n (some e) p').tries + 1⟩ := by
  rw [retry_loop.eq_2, h]

theorem retry_loop_last_error (g : Nat → Except String Scene × Nat) :
    ∀ (n : Nat) (last : Option String) (p : Nat) (e : Option String), 0 < n →
      (retry_loop g n last p).out = .error e →
      ∃ (msg : String) (p₀ : Nat), e = some msg ∧
        g p₀ = (.error msg, (retry_loop g n last p).pos) := by
  intro n
  induction n with
  | zero =>
    intro last p e h0
    exact absurd h0 (by omega)
  | succ n ih =>
    intro last p e _ hout
    cases hg : g p with
    | mk o q =>
      cases o with
      | ok sc =>
        rw [retry_loop_ok_step g n last p sc q hg] at hout
        simp at hout
      | error e' =>
        rw [retry_loop_err_step g n last p e' q hg] at hout ⊢
        dsimp only at hout ⊢
        rcases Nat.eq_zero_or_pos n with rfl | hn
        · rw [retry_loop.eq_1] at hout ⊢
          dsimp only at hout ⊢
          rw [Except.error.injEq] at hout
          exact ⟨e', p, hout.symm, hg⟩
        · obtain ⟨msg, p₀, hmsg, hgp⟩ := ih (some e') q e hn hout
          exact ⟨msg, p₀, hmsg, hgp⟩

theorem retry_loop_ok_source (g : Nat → Except String Scene × Nat) :
    ∀ (n : Nat) (last : Option String) (p : Nat) (sc : Scene),
      (retry_loop g n last p).out = .ok sc →
      ∃ (p₀ p₁ : Nat), g p₀ = (.ok sc, p₁) := by
  intro n
  induction n with
  | zero =>
    intro last p sc h
    rw [retry_loop.eq_1] at h
    simp at h
  | succ n ih =>
    intro last p sc h
    cases hg : g p with
    | mk o q =>
      cases o with
      | ok sc' =>
        rw [retry_loop_ok_step g n last p sc' q hg] at h
        dsimp only at h
        rw [Except.ok.injEq] at h
        exact ⟨p, q, by rw [hg, h]⟩
      | error e' =>
        rw [retry_loop_err_step g n last p e' q hg] at h
        dsimp only at h
        exact ih (some e') q sc h

/-! ### C7: bounded per-element search with recoverable failure -/

/-- C7: every placement search performs at most 4000 attempts (both the
two-pin and the transformer search), exhausting the budget raises a
feasibility error whose message names the offending element (the exact
`Could not place <cid> ...` string for two-pin elements, the transformer
message for the transformer), and the failure is recoverable: when a scene
attempt fails and the next attempt succeeds, `generate_one` still returns
the successful scene (after 2 attempts) instead of terminating. -/
theorem claim7_bounded_search :
    (∀ (f : Nat → ℚ) (cid ctype element label : String) (st : SceneState) (p : Nat),
      (place_two_pin f cid ctype element label st p).tries ≤ 4000) ∧
    (∀ (f : Nat → ℚ) (st : SceneState) (p : Nat),
      (place_transformer_node f st p).tries ≤ 4000) ∧
    (∀ (f : Nat → ℚ) (cid ctype element label : String) (fuel : Nat) (st : SceneState)
        (p : Nat) (e : String),
      (place_two_pin_loop f cid ctype element label fuel st p).out = .error e →
      e = "Could not place " ++ cid ++
        " without overlap. Consider enlarging view_bbox or reducing pad.") ∧
    (∀ (f : Nat → ℚ) (fuel : Nat) (st : SceneState) (p : Nat) (e : String),
      (place_transformer_loop f fuel st p).out = .error e →
      e = "Could not place transformer without overlap.") ∧
    (∀ (f : Nat → ℚ) (p : Nat) (e : String) (p1 : Nat) (sc : Scene) (p2 : Nat),
      generate_scene_with_leads f p = (.error e, p1) →
      generate_scene_with_leads f p1 = (.ok sc, p2) →
      generate_one f p = ⟨.ok sc, p2, 2⟩) := by
  refine ⟨fun f cid ctype element label st p =>
      place_two_pin_loop_tries f cid ctype element label 4000 st p,
    fun f st p => place_transformer_loop_tries f 4000 st p,
    fun f cid ctype element label fuel st p e h =>
      place_two_pin_loop_error f cid ctype element label fuel st p e h,
    fun f fuel st p e h => place_transformer_loop_error f fuel st p e h,
    ?_⟩
  intro f p e p1 sc p2 h1 h2
  have h79 : retry_loop (generate_scene_with_leads f) 80 none p =
      ⟨(retry_loop (generate_scene_with_leads f) 79 (some e) p1).out,
       (retry_loop (generate_scene_with_leads f) 79 (some e) p1).pos,
       (retry_loop (generate_scene_with_leads f) 79 (some e) p1).tries + 1⟩ :=
    retry_loop_err_step (generate_scene_with_leads f) 79 none p e p1 h1
  have h78 : retry_loop (generate_scene_with_leads f) 79 (some e) p1 =
      ⟨.ok sc, p2, 1⟩ :=
    retry_loop_ok_step (generate_scene_with_leads f) 78 (some e) p1 sc p2 h2
  show retry_loop (generate_scene_with_leads f) 80 none p = ⟨.ok sc, p2, 2⟩
  rw [h79, h78]

theorem claim7_witness :
    (place_two_pin failS "AC1" "ACSource" "sV" "AC" failSt1 4).tries ≤ 4000 ∧
    (place_transformer_node failS ⟨[], [], [], []⟩ 1).tries ≤ 4000 ∧
    msgAC1 = "Could not place " ++ "AC1" ++
      " without overlap. Consider enlarging view_bbox or reducing pad." ∧
    generate_one failS 0 = ⟨.ok cscene, 20062, 2⟩ :=
  ⟨claim7_bounded_search.1 failS "AC1" "ACSource" "sV" "AC" failSt1 4,
   claim7_bounded_search.2.1 failS ⟨[], [], [], []⟩ 1,
   claim7_bounded_search.2.2.1 failS "AC1" "ACSource" "sV" "AC" 0 failSt1 0 msgAC1
     (by with_unfolding_all rfl),
   claim7_bounded_search.2.2.2.2 failS 0 msgAC1 20004 cscene 20062
     gen_failS_err gen_failS_ok⟩

/-! ### C8: the whole-scene retry wrapper -/

/-- C8: the retry wrapper performs at most 80 whole-scene attempts per
sample; on a feasibility failure it discards the whole partial scene and
restarts assembly from scratch (a fresh `generate_scene_with_leads` call on
the advanced stream — no state survives); when the fuel is exhausted it
propagates the last underlying failure (the error of the final failing
attempt, at the wrapper's final stream position); and every scene it returns
is the result of one successful whole-scene build — no partial scene is ever
exported. -/
theorem claim8_retry_wrapper :
    (∀ (g : Nat → Except String Scene × Nat) (n : Nat) (last : Option String) (p : Nat),
      (retry_loop g n last p).tries ≤ n) ∧
    (∀ (f : Nat → ℚ) (p : Nat), (generate_one f p).tries ≤ 80) ∧
    (∀ (g : Nat → Except String Scene × Nat) (last : Option String) (p : Nat),
      retry_loop g 0 last p = ⟨.error last, p, 0⟩) ∧
    (∀ (g : Nat → Except String Scene × Nat) (n : Nat) (last : Option String) (p : Nat)
        (sc : Scene) (p' : Nat), g p = (.ok sc, p') →
      retry_loop g (n+1) last p = ⟨.ok sc, p', 1⟩) ∧
    (∀ (g : Nat → Except String Scene × Nat) (n : Nat) (last : Option String) (p : Nat)
        (e : String) (p' : Nat), g p = (.error e, p') →
      retry_loop g (n+1) last p =
        ⟨(retry_loop g n (some e) p').out, (retry_loop g n (some e) p').pos,
         (retry_loop g n (some e) p').tries + 1⟩) ∧
    (∀ (g : Nat → Except String Scene × Nat) (n : Nat) (last : Option String) (p : Nat)
        (e : Option String), 0 < n →
      (retry_loop g n last p).out = .error e →
      ∃ (msg : String) (p₀ : Nat), e = some msg ∧
        g p₀ = (.error msg, (retry_loop g n last p).pos)) ∧
    (∀ (f : Nat → ℚ) (p : Nat) (sc : Scene), (generate_one f p).out = .ok sc →
      ∃ (p₀ p₁ : Nat), generate_scene_with_leads f p₀ = (.ok sc, p₁)) := by
  refine ⟨fun g n last p => retry_loop_tries g n last p,
    fun f p => retry_loop_tries (generate_scene_with_leads f) 80 none p,
    fun g last p => retry_loop.eq_1 g last p,
    fun g n last p sc p' h => retry_loop_ok_step g n last p sc p' h,
    fun g n last p e p' h => retry_loop_err_step g n last p e p' h,
    fun g n last p e h0 hout => retry_loop_last_error g n last p e h0 hout,
    fun f p sc h => retry_loop_ok_source (generate_scene_with_leads f) 80 none p sc h⟩

theorem claim8_witness :
    (generate_one cstream 0).tries ≤ 80 ∧
    generate_one cstream 0 = ⟨.ok cscene, 58, 1⟩ ∧
    retry_loop (generate_scene_with_leads failS) 1 none 0 =
      ⟨(retry_loop (generate_scene_with_leads failS) 0 (some msgAC1) 20004).out,
       (retry_loop (generate_scene_with_leads failS) 0 (some msgAC1) 20004).pos,
       (retry_loop (generate_scene_with_leads failS) 0 (some msgAC1) 20004).tries + 1⟩ ∧
    (∃ (p₀ p₁ : Nat), generate_scene_with_leads cstream p₀ = (.ok cscene, p₁)) := by
  have hgen1 : generate_one cstream 0 = ⟨.ok cscene, 58, 1⟩ :=
    claim8_retry_wrapper.2.2.2.1 (generate_scene_with_leads cstream) 79 none 0 cscene 58
      cscene_eq
  refine ⟨claim8_retry_wrapper.2.1 cstream 0, hgen1,
    claim8_retry_wrapper.2.2.2.2.1 (generate_scene_with_leads failS) 0 none 0 msgAC1 20004
      gen_failS_err,
    claim8_retry_wrapper.2.2.2.2.2.2 cstream 0 cscene (by rw [hgen1])⟩

theorem claim10_witness :
    ∃ (w : Pt) (pre : List Cmd),
      cscene.markers.getLast? =
        some ⟨"JUMP1", "wire_jump", w, MarkerAttrs.wireJump (30/100) (30/100)⟩ ∧
      cscene.body = pre ++
        [Cmd.seg (w.1, w.2 - 22/10) (w.1, w.2 + 22/10),
         Cmd.seg (w.1 - 24/10, w.2) (w.1 - 30/100, w.2),
         Cmd.hump (w.1 - 30/100) (w.1 + 30/100) w.2 (30/100),
         Cmd.seg (w.1 + 30/100, w.2) (w.1 + 24/10, w.2)] ∧
      (∀ d ∈ pre, isHump d = false) ∧
      cscene.body.countP isHump = 1 :=
  claim10_wire_jump_shape cstream 0 cscene 58 cscene_eq

end CircuitGen
